import Mathlib

/-!
Verification of the AQI computation engine of the `openaq-aqi-predictor`
repository.  The definitions below are a shallow embedding of `src/aqi.py`
and `src/preprocessing.py`: Python floats are modelled as rationals plus an
explicit NaN, Python dicts as association lists, and pandas data frames as a
column list plus a list of rows.
-/

attribute [local semireducible] Rat.mul Rat.add Rat.sub Rat.inv Rat.ofScientific

namespace Aqi

/-- A Python float value: a finite rational, or NaN. -/
inductive PyFloat where
  | num (q : ℚ)
  | nan
deriving DecidableEq, Repr

/-- `np.isnan` on a `PyFloat`. -/
def PyFloat.isNan : PyFloat → Bool
  | .nan => true
  | .num _ => false

/-- `Breakpoint` dataclass from `src/aqi.py`: one tier of an EPA table. -/
structure Breakpoint where
  bp_low : ℚ
  bp_high : ℚ
  i_low : ℤ
  i_high : ℤ
deriving DecidableEq, Repr

/-- Per-pollutant entry of the `BREAKPOINTS` dict: canonical unit and table. -/
structure PollutantSpec where
  unit : String
  table : List Breakpoint
deriving DecidableEq, Repr

def pm25_table : List Breakpoint :=
  [⟨0, 12, 0, 50⟩, ⟨12.1, 35.4, 51, 100⟩, ⟨35.5, 55.4, 101, 150⟩,
   ⟨55.5, 150.4, 151, 200⟩, ⟨150.5, 250.4, 201, 300⟩, ⟨250.5, 350.4, 301, 400⟩,
   ⟨350.5, 500.4, 401, 500⟩]

def pm10_table : List Breakpoint :=
  [⟨0, 54, 0, 50⟩, ⟨55, 154, 51, 100⟩, ⟨155, 254, 101, 150⟩,
   ⟨255, 354, 151, 200⟩, ⟨355, 424, 201, 300⟩, ⟨425, 504, 301, 400⟩,
   ⟨505, 604, 401, 500⟩]

def o3_table : List Breakpoint :=
  [⟨0, 0.054, 0, 50⟩, ⟨0.055, 0.070, 51, 100⟩, ⟨0.071, 0.085, 101, 150⟩,
   ⟨0.086, 0.105, 151, 200⟩, ⟨0.106, 0.200, 201, 300⟩, ⟨0.201, 0.604, 301, 500⟩]

def co_table : List Breakpoint :=
  [⟨0, 4.4, 0, 50⟩, ⟨4.5, 9.4, 51, 100⟩, ⟨9.5, 12.4, 101, 150⟩,
   ⟨12.5, 15.4, 151, 200⟩, ⟨15.5, 30.4, 201, 300⟩, ⟨30.5, 40.4, 301, 400⟩,
   ⟨40.5, 50.4, 401, 500⟩]

def so2_table : List Breakpoint :=
  [⟨0, 35, 0, 50⟩, ⟨36, 75, 51, 100⟩, ⟨76, 185, 101, 150⟩,
   ⟨186, 304, 151, 200⟩, ⟨305, 604, 201, 300⟩, ⟨605, 804, 301, 400⟩,
   ⟨805, 1004, 401, 500⟩]

def no2_table : List Breakpoint :=
  [⟨0, 53, 0, 50⟩, ⟨54, 100, 51, 100⟩, ⟨101, 360, 101, 150⟩,
   ⟨361, 649, 151, 200⟩, ⟨650, 1249, 201, 300⟩, ⟨1250, 1649, 301, 400⟩,
   ⟨1650, 2049, 401, 500⟩]

/-- The `BREAKPOINTS` dict of `src/aqi.py`, in insertion order. -/
def BREAKPOINTS : List (String × PollutantSpec) :=
  [("pm25", ⟨"ug/m3", pm25_table⟩), ("pm10", ⟨"ug/m3", pm10_table⟩),
   ("o3", ⟨"ppm", o3_table⟩), ("co", ⟨"ppm", co_table⟩),
   ("so2", ⟨"ppb", so2_table⟩), ("no2", ⟨"ppb", no2_table⟩)]

/-- Dict lookup on an association list (Python `d.get(k)` / `d[k]`). -/
def dictLookup {α : Type} (d : List (String × α)) (k : String) : Option α :=
  (d.find? (fun e => e.1 == k)).map (·.2)

/-- Dict membership (Python `k in d`). -/
def dictContains {α : Type} (d : List (String × α)) (k : String) : Bool :=
  (d.find? (fun e => e.1 == k)).isSome

/-- The `MOLECULAR_WEIGHTS` dict of `src/aqi.py`. -/
def MOLECULAR_WEIGHTS : List (String × ℚ) :=
  [("o3", 48.00), ("no2", 46.01), ("so2", 64.07), ("co", 28.01)]

/-- `_ugm3_to_ppm` of `src/aqi.py`: ppm = (ug/m3) * 24.45 / (MW * 1000). -/
def ugm3_to_ppm (value_ugm3 mw : ℚ) : ℚ :=
  (value_ugm3 * 24.45) / (mw * 1000)

/-- `_ppm_to_ugm3` of `src/aqi.py`. -/
def ppm_to_ugm3 (value_ppm mw : ℚ) : ℚ :=
  (value_ppm * mw * 1000) / 24.45

/-- Recursion core of Python `str.replace` on character lists.  The fuel
argument makes the recursion structural; it starts at the list length and
always dominates the remaining length, so it never runs out. -/
def replaceAux (pat repl : List Char) : Nat → List Char → List Char
  | 0, l => l
  | _ + 1, [] => []
  | fuel + 1, c :: rest =>
    match pat with
    | [] => c :: rest
    | p :: ps =>
      if c = p ∧ rest.take ps.length = ps then
        repl ++ replaceAux pat repl fuel (rest.drop ps.length)
      else
        c :: replaceAux pat repl fuel rest

/-- Python `str.replace`, on character lists: replaces every non-overlapping
occurrence of `pat` (left to right) by `repl`. -/
def replaceList (pat repl l : List Char) : List Char :=
  replaceAux pat repl l.length l

/-- Python `str.strip()` (default whitespace), on character lists. -/
def trimList (l : List Char) : List Char :=
  ((l.dropWhile Char.isWhitespace).reverse.dropWhile Char.isWhitespace).reverse

/-- Python `str.lower()`, on character lists (ASCII case folding; the unit
strings handled by the source contain no cased non-ASCII letters). -/
def lowerList (l : List Char) : List Char :=
  l.map Char.toLower

/-- The normalization body shared by `_normalize_unit` (aqi.py) and
`normalize_unit` (preprocessing.py): strip, lower-case, fold micro-sign and
superscript variants. -/
def pyNormalizeUnit (s : String) : String :=
  let l := lowerList (trimList s.toList)
  let l := replaceList ['µ'] ['u'] l
  let l := replaceList "ug/m^3".toList "ug/m3".toList l
  let l := replaceList "ug/m³".toList "ug/m3".toList l
  let l := replaceList "mg/m³".toList "mg/m3".toList l
  String.mk l

/-- `_normalize_unit` of `src/aqi.py`. -/
def normalize_unit : Option String → Option String
  | none => none
  | some s => some (pyNormalizeUnit s)

/-- `convert_to_standard` of `src/aqi.py`.  Returns `(value, unit)` in
standard units or `(none, none)` if conversion fails.  The two trailing
`target_unit` tests of the source (fall-through to `return None, None`) are
rendered as the nested conditionals below, which take the same branch in
every case. -/
def convert_to_standard (pollutant : String) (value : Option PyFloat)
    (unit : Option String) : Option ℚ × Option String :=
  match value with
  | none => (none, none)
  | some .nan => (none, none)
  | some (.num v) =>
    match dictLookup BREAKPOINTS pollutant with
    | none => (none, none)
    | some spec =>
      let unit := normalize_unit unit
      let target_unit := spec.unit
      if unit = some target_unit then (some v, some target_unit)
      else if pollutant = "pm25" ∨ pollutant = "pm10" then
        if unit = some "mg/m3" then (some (v * 1000), some target_unit)
        else if unit = some "ug/m3" then (some v, some target_unit)
        else (none, none)
      else
        match dictLookup MOLECULAR_WEIGHTS pollutant with
        | none => (none, none)
        | some mw =>
          if target_unit = "ppm" then
            if unit = some "ppb" then (some (v / 1000), some target_unit)
            else if unit = some "ug/m3" then (some (ugm3_to_ppm v mw), some target_unit)
            else if unit = some "mg/m3" then
              (some (ugm3_to_ppm (v * 1000) mw), some target_unit)
            else if unit = some "ppm" then (some v, some target_unit)
            else (none, none)
          else if target_unit = "ppb" then
            if unit = some "ppm" then (some (v * 1000), some target_unit)
            else if unit = some "ug/m3" then
              (some (ugm3_to_ppm v mw * 1000), some target_unit)
            else if unit = some "mg/m3" then
              (some (ugm3_to_ppm (v * 1000) mw * 1000), some target_unit)
            else if unit = some "ppb" then (some v, some target_unit)
            else (none, none)
          else (none, none)

/-- The interpolation formula inside `compute_iaqi`:
`((i_high - i_low) / (bp_high - bp_low)) * (v - bp_low) + i_low`. -/
def interpolate (bp : Breakpoint) (v : ℚ) : ℚ :=
  (((bp.i_high : ℚ) - (bp.i_low : ℚ)) / (bp.bp_high - bp.bp_low)) * (v - bp.bp_low)
    + (bp.i_low : ℚ)

/-- The `for bp in table` loop of `compute_iaqi`: first tier whose closed
interval contains `v`, else `none`. -/
def scanTable (v : ℚ) : List Breakpoint → Option ℚ
  | [] => none
  | bp :: rest =>
    if bp.bp_low ≤ v ∧ v ≤ bp.bp_high then some (interpolate bp v)
    else scanTable v rest

/-- `compute_iaqi` of `src/aqi.py`. -/
def compute_iaqi (pollutant : String) (concentration : Option PyFloat)
    (unit : Option String := none) : Option ℚ :=
  match dictLookup BREAKPOINTS pollutant with
  | none => none
  | some spec =>
    let unit := match unit with
      | none => some spec.unit
      | some u => some u
    match convert_to_standard pollutant concentration unit with
    | (some converted, some _) => scanTable converted spec.table
    | _ => none

/-- The six keys of `BREAKPOINTS`, in dict insertion order. -/
def pollutantKeys : List String := ["pm25", "pm10", "o3", "co", "so2", "no2"]

/-- The `iaqis` list built by the loop of `compute_aqi_row`: for each
pollutant of `BREAKPOINTS` present as a key of `row_values`, the defined
sub-indices, in table order.  A `units` dict that is `None` or empty is
falsy in Python, leaving the unit `None`. -/
def rowSubIndices (row_values : List (String × Option PyFloat))
    (units : Option (List (String × Option String))) : List ℚ :=
  pollutantKeys.filterMap fun p =>
    if dictContains row_values p then
      let u : Option String :=
        match units with
        | none => none
        | some us => if us = [] then none else (dictLookup us p).getD none
      compute_iaqi p ((dictLookup row_values p).getD none) u
    else none

/-- `compute_aqi_row` of `src/aqi.py`: `None` when no sub-index is defined,
otherwise `np.max` of the collected sub-indices. -/
def compute_aqi_row (row_values : List (String × Option PyFloat))
    (units : Option (List (String × Option String)) := none) : Option ℚ :=
  let iaqis := rowSubIndices row_values units
  if iaqis = [] then none else iaqis.max?

/-- `aqi_category` of `src/aqi.py`. -/
def aqi_category : Option PyFloat → Option String
  | none => none
  | some .nan => none
  | some (.num aqi) =>
    if aqi ≤ 50 then some "Good"
    else if aqi ≤ 100 then some "Moderate"
    else if aqi ≤ 150 then some "Unhealthy for Sensitive Groups"
    else if aqi ≤ 200 then some "Unhealthy"
    else if aqi ≤ 300 then some "Very Unhealthy"
    else if aqi ≤ 500 then some "Hazardous"
    else some "Hazardous"

/-! ### Spec-side definitions used to state the claims -/

/-- The claim's description of the sub-index computation: scan the table in
order, take the first tier whose closed interval contains `v`, and apply the
EPA interpolation formula; `none` when no tier contains `v`. -/
def firstMatchSubIndex (tbl : List Breakpoint) (v : ℚ) : Option ℚ :=
  (tbl.find? fun bp => decide (bp.bp_low ≤ v ∧ v ≤ bp.bp_high)).map fun bp =>
    (((bp.i_high : ℚ) - (bp.i_low : ℚ)) / (bp.bp_high - bp.bp_low)) * (v - bp.bp_low)
      + (bp.i_low : ℚ)

/-- The claim's AQI category step function. -/
def categorySpec (aqi : ℚ) : String :=
  if aqi ≤ 50 then "Good"
  else if aqi ≤ 100 then "Moderate"
  else if aqi ≤ 150 then "Unhealthy for Sensitive Groups"
  else if aqi ≤ 200 then "Unhealthy"
  else if aqi ≤ 300 then "Very Unhealthy"
  else "Hazardous"

/-- The pollutant's canonical unit, read off the `BREAKPOINTS` table. -/
def canonicalUnit (p : String) : Option String :=
  (dictLookup BREAKPOINTS p).map (·.unit)

/-- The normalized unit strings for which `convert_to_standard` has a
conversion rule, per pollutant class. -/
def acceptedUnits (p : String) : List String :=
  if p = "pm25" ∨ p = "pm10" then ["ug/m3", "mg/m3"]
  else ["ppm", "ppb", "ug/m3", "mg/m3"]

/-- For every pair of consecutive entries: ascending (`bp_high` of entry `i`
below `bp_low` of entry `i+1`, hence no overlap) and adjacent at the
reporting resolution `res` (hence no gap at that resolution). -/
def consecutiveAdjacent (res : ℚ) : List Breakpoint → Prop
  | a :: b :: rest =>
    (a.bp_high < b.bp_low ∧ b.bp_low = a.bp_high + res) ∧
      consecutiveAdjacent res (b :: rest)
  | _ => True

instance consecutiveAdjacentDec (res : ℚ) :
    (tbl : List Breakpoint) → Decidable (consecutiveAdjacent res tbl)
  | [] => isTrue trivial
  | [_] => isTrue trivial
  | _ :: b :: rest =>
    @instDecidableAnd _ _ inferInstance (consecutiveAdjacentDec res (b :: rest))

/-- Tier invariants of one breakpoint table at reporting resolution `res`:
well-formed closed intervals, well-formed index ranges, ascending order, and
consecutive tiers adjacent at the table's resolution (`bp_low` of entry `i+1`
is the next representable value after `bp_high` of entry `i`: no gap, no
overlap). -/
def tableWellFormed (res : ℚ) (tbl : List Breakpoint) : Prop :=
  (∀ bp ∈ tbl, bp.bp_low ≤ bp.bp_high ∧ bp.i_low ≤ bp.i_high) ∧
    consecutiveAdjacent res tbl

instance (res : ℚ) (tbl : List Breakpoint) : Decidable (tableWellFormed res tbl) :=
  inferInstanceAs (Decidable
    ((∀ bp ∈ tbl, bp.bp_low ≤ bp.bp_high ∧ bp.i_low ≤ bp.i_high) ∧
      consecutiveAdjacent res tbl))

end Aqi

namespace Prep

open Aqi

/-! ### Model of `src/preprocessing.py`

A pandas `DataFrame` is modelled as a list of column names plus a list of
rows, each row an association list from column names to cells.  A cell holds
a string, a finite number, NaN (also covering None/NaT), or an
already-parsed UTC timestamp modelled as an abstract tick count (free-text
datetime parsing is outside the model; unparsable text coerces to NaN as in
`errors="coerce"`).  Missing-column accesses (`KeyError`) are modelled as
`Except.error` carrying the column name. -/

inductive Cell where
  | str (s : String)
  | num (q : ℚ)
  | nan
  | time (t : ℤ)
deriving DecidableEq, Repr

abbrev Row := List (String × Cell)

structure Frame where
  cols : List String
  rows : List Row
deriving DecidableEq, Repr

/-- Value of column `c` in a row (NaN when the row has no entry, as pandas
fills absent cells with NaN). -/
def getCell (r : Row) (c : String) : Cell :=
  ((r.find? (fun e => e.1 == c)).map (·.2)).getD Cell.nan

/-- Overwrite (or append) the entry of column `c` in a row. -/
def setCell (r : Row) (c : String) (v : Cell) : Row :=
  if (r.find? (fun e => e.1 == c)).isSome then
    r.map (fun e => if e.1 == c then (e.1, v) else e)
  else r ++ [(c, v)]

def Frame.hasCol (f : Frame) (c : String) : Bool := f.cols.contains c

/-- `df[c] = df[c].apply(g)` on an existing column (callers check existence
first, mirroring the `KeyError` the source would raise). -/
def Frame.mapCol (f : Frame) (c : String) (g : Cell → Cell) : Frame :=
  ⟨f.cols, f.rows.map (fun r => setCell r c (g (getCell r c)))⟩

/-- `df[c] = <row-wise expression>`: adds or overwrites a column. -/
def Frame.addCol (f : Frame) (c : String) (g : Row → Cell) : Frame :=
  ⟨if f.cols.contains c then f.cols else f.cols ++ [c],
   f.rows.map (fun r => setCell r c (g r))⟩

/-- Boolean-mask row filtering (`df = df[mask]`). -/
def Frame.filterRows (f : Frame) (keep : Row → Bool) : Frame :=
  ⟨f.cols, f.rows.filter keep⟩

/-- `df[cols]`: project to the given columns, in that order. -/
def Frame.selectCols (f : Frame) (cs : List String) : Frame :=
  ⟨cs, f.rows.map (fun r => cs.map (fun c => (c, getCell r c)))⟩

/-- `POLLUTANTS` set of `src/preprocessing.py`. -/
def POLLUTANTS : List String := ["pm25", "pm10", "no2", "o3", "co", "so2"]

/-- `_normalize_col_name`: strip, lower-case, spaces and hyphens to
underscores. -/
def normalizeColName (s : String) : String :=
  let l := lowerList (trimList s.toList)
  let l := replaceList [' '] ['_'] l
  let l := replaceList ['-'] ['_'] l
  String.mk l

/-- The recognized-name mapping inside `standardize_columns`: the rename
target for a normalized column name, when recognized. -/
def recognizedTarget (n : String) : Option String :=
  if n = "country" ∨ n = "city" ∨ n = "location" ∨ n = "coordinates" ∨
      n = "pollutant" ∨ n = "value" then some n
  else if n = "unit" then some "unit"
  else if n = "source_name" ∨ n = "source" then some "source_name"
  else if n = "last_updated" ∨ n = "last_updated_utc" ∨ n = "datetime" then
    some "last_updated"
  else none

/-- Python-dict insertion with overwrite (`d[k] = v`). -/
def insertOverwrite (m : List (String × String)) (k v : String) :
    List (String × String) :=
  m.filter (fun e => e.1 ≠ k) ++ [(k, v)]

/-- The `normalized = {_normalize_col_name(c): c for c in df.columns}` dict:
later columns with the same normalized name overwrite earlier ones. -/
def normalizedDict (cols : List String) : List (String × String) :=
  cols.foldl (fun m c => insertOverwrite m (normalizeColName c) c) []

/-- The `rename_map` built by `standardize_columns`. -/
def renameMap (cols : List String) : List (String × String) :=
  (normalizedDict cols).filterMap fun e =>
    (recognizedTarget e.1).map fun t => (e.2, t)

/-- `df.rename(columns=rename_map)` applied to one column name. -/
def applyRename (rm : List (String × String)) (c : String) : String :=
  ((rm.find? (fun e => e.1 == c)).map (·.2)).getD c

/-- `standardize_columns` of `src/preprocessing.py`. -/
def standardize_columns (f : Frame) : Frame :=
  let rm := renameMap f.cols
  ⟨f.cols.map (applyRename rm),
   f.rows.map (fun r => r.map (fun e => (applyRename rm e.1, e.2)))⟩

/-- `normalize_pollutant_name` of `src/preprocessing.py`, on the string it
receives (`str(p)` of a cell). -/
def normalize_pollutant_name (p : String) : String :=
  let text := String.mk (lowerList (trimList p.toList))
  let compact := String.mk (text.toList.filter fun c => c ≠ ' ' ∧ c ≠ '_' ∧ c ≠ '-')
  if compact = "pm2.5" ∨ compact = "pm25" then "pm25" else compact

/-- Python `str(cell)` for the non-string cells that reach the text-based
normalizers: NaN prints as text that no normalizer recognizes.  Numeric and
timestamp reprs are abstracted to fixed placeholder text, which like the
actual reprs matches no recognized pollutant or unit. -/
def cellText : Cell → String
  | .str s => s
  | .nan => "nan"
  | .num _ => "<float>"
  | .time _ => "<datetime>"

/-- One digit character to its value. -/
def digitVal (c : Char) : ℕ := c.toNat - '0'.toNat

/-- Digits to a natural number (most significant first). -/
def digitsToNat (l : List Char) : ℕ :=
  l.foldl (fun a c => a * 10 + digitVal c) 0

/-- The token scan of `re.findall(r"-?\d+\.\d+|-?\d+", text)`: signed
decimal tokens (a fraction part only when at least one digit follows the
dot), scanned left to right, each converted to ℚ.  Fuel-structured on the
text length. -/
def scanNumbersAux : ℕ → List Char → List ℚ
  | 0, _ => []
  | _ + 1, [] => []
  | fuel + 1, c :: rest =>
    let signed : Bool := c = '-' ∧ (rest.head?.map Char.isDigit).getD false
    if c.isDigit ∨ signed then
      let body := if signed then rest else c :: rest
      let ds := body.takeWhile Char.isDigit
      let rest1 := body.dropWhile Char.isDigit
      let intPart : ℚ := (digitsToNat ds : ℚ)
      match rest1 with
      | '.' :: rest2 =>
        let fs := rest2.takeWhile Char.isDigit
        if fs = [] then
          let v := if signed then -intPart else intPart
          v :: scanNumbersAux fuel rest1
        else
          let frac : ℚ := (digitsToNat fs : ℚ) / ((10 : ℚ) ^ fs.length)
          let v := if signed then -(intPart + frac) else intPart + frac
          v :: scanNumbersAux fuel (rest2.dropWhile Char.isDigit)
      | _ =>
        let v := if signed then -intPart else intPart
        v :: scanNumbersAux fuel rest1
    else
      scanNumbersAux fuel rest

def scanNumbers (l : List Char) : List ℚ :=
  scanNumbersAux l.length l

/-- `parse_coordinates` of `src/preprocessing.py`, on a cell.  List/tuple
coordinate values do not occur in the delimited-text input modelled here; a
numeric or timestamp cell stringifies to at most one numeric token, hence
`(None, None)`, which the placeholder text of `cellText` reproduces. -/
def parse_coordinates (v : Cell) : Option ℚ × Option ℚ :=
  match v with
  | .nan => (none, none)
  | other =>
    match scanNumbers (cellText other).toList with
    | a :: b :: _ => (some a, some b)
    | _ => (none, none)

/-- `pd.to_numeric(·, errors="coerce")` on a cell: numbers pass through,
numeric text is parsed, everything else coerces to NaN.  Numeric text is
recognized as an optional sign plus a decimal literal. -/
def toNumericCell (v : Cell) : Cell :=
  match v with
  | .num q => .num q
  | .str s =>
    let l := trimList s.toList
    let (sgn, body) : ℚ × List Char :=
      match l with
      | '-' :: rest => (-1, rest)
      | '+' :: rest => (1, rest)
      | l => (1, l)
    let ds := body.takeWhile Char.isDigit
    let rest1 := body.dropWhile Char.isDigit
    match rest1 with
    | [] =>
      if ds = [] then .nan else .num (sgn * (digitsToNat ds : ℚ))
    | '.' :: fs =>
      if (ds = [] ∧ fs = []) ∨ ¬ fs.all Char.isDigit then .nan
      else .num (sgn * ((digitsToNat ds : ℚ) +
        (digitsToNat fs : ℚ) / ((10 : ℚ) ^ fs.length)))
    | _ => .nan
  | _ => .nan

/-- `normalize_unit` of `src/preprocessing.py`, on a cell: it stringifies
its argument (`str(unit)`) before normalizing, so NaN becomes the text
"nan". -/
def normalizeUnitCell (v : Cell) : Cell :=
  .str (pyNormalizeUnit (cellText v))

/-- `pd.to_datetime(·, errors="coerce", utc=True).dt.tz_convert(None)` on a
cell: already-parsed instants pass through; everything else coerces to NaT
(modelled as NaN).  The tz-marker strip is the identity on abstract ticks. -/
def parseTimestampCell (v : Cell) : Cell :=
  match v with
  | .time t => .time t
  | _ => .nan

/-- The pollutant argument `row["pollutant"]` passes to
`convert_to_standard` (a string after normalization). -/
def cellPollutant (v : Cell) : String :=
  match v with
  | .str s => s
  | _ => ""

/-- The value argument: after `to_numeric` the cell is a float or NaN. -/
def cellValue (v : Cell) : Option PyFloat :=
  match v with
  | .num q => some (.num q)
  | _ => some .nan

/-- The unit argument: after `normalize_unit` the cell is a string. -/
def cellUnit (v : Cell) : Option String :=
  match v with
  | .str s => some s
  | _ => none

/-- `convert_to_standard` applied row-wise, yielding the `value_std` and
`unit_std` cells. -/
def convertRow (r : Row) : Cell × Cell :=
  match convert_to_standard (cellPollutant (getCell r "pollutant"))
      (cellValue (getCell r "value")) (cellUnit (getCell r "unit")) with
  | (some q, some u) => (.num q, .str u)
  | (some q, none) => (.num q, .nan)
  | (none, some u) => (.nan, .str u)
  | (none, none) => (.nan, .nan)

/-- The `drop_duplicates` subset of `clean_raw_data`. -/
def dedupSubset : List String :=
  ["timestamp", "location", "pollutant", "value_std", "latitude", "longitude"]

/-- Keep-first deduplication on a key (pandas `drop_duplicates`, which
treats NaN keys as equal, as does cell equality here). -/
def dedupAux (key : Row → List Cell) : List Row → List (List Cell) → List Row
  | [], _ => []
  | r :: rest, seen =>
    if key r ∈ seen then dedupAux key rest seen
    else r :: dedupAux key rest (key r :: seen)

/-- The `keep_cols` candidate list of `clean_raw_data`. -/
def keepList : List String :=
  ["country", "city", "location", "latitude", "longitude", "timestamp",
   "pollutant", "value_std", "unit_std", "source_name"]

/-- The row transformations of `clean_raw_data` between the column checks
and deduplication (source lines 90–112): pollutant normalization and
filtering, unit normalization, numeric coercion, timestamp parsing,
coordinate parsing, standard-unit conversion, and the dropna on
timestamp/value_std. -/
def cleanMid (df1 : Frame) : Frame :=
  let df := df1.mapCol "pollutant" (fun c => .str (normalize_pollutant_name (cellText c)))
  let df := df.filterRows (fun r =>
    match getCell r "pollutant" with
    | .str s => POLLUTANTS.contains s
    | _ => false)
  let df := df.mapCol "unit" normalizeUnitCell
  let df := df.mapCol "value" toNumericCell
  let df := df.addCol "timestamp" (fun r => parseTimestampCell (getCell r "last_updated"))
  let df := df.addCol "latitude" (fun r =>
    match (parse_coordinates (getCell r "coordinates")).1 with
    | some q => .num q
    | none => .nan)
  let df := df.addCol "longitude" (fun r =>
    match (parse_coordinates (getCell r "coordinates")).2 with
    | some q => .num q
    | none => .nan)
  let df := df.addCol "value_std" (fun r => (convertRow r).1)
  let df := df.addCol "unit_std" (fun r => (convertRow r).2)
  df.filterRows (fun r =>
    getCell r "timestamp" != Cell.nan && getCell r "value_std" != Cell.nan)

/-- The `raw_has_pm25` flag, computed on the standardized frame before
pollutant normalization (the source's `raw_pollutants` copy). -/
def rawHasPm25 (df : Frame) : Bool :=
  (df.rows.map (fun r => getCell r "pollutant")).any
    (fun c => normalize_pollutant_name (cellText c) == "pm25")

/-- `clean_raw_data` of `src/preprocessing.py`.  Column accesses raise
`KeyError` in the source; their existence checks are hoisted to the front in
source-access order (the intervening steps never add or remove any of the
checked columns, so the first error raised is the same).  The
`drop_duplicates` subset check models the `KeyError` pandas raises when a
subset column is missing.  The final `assert` is modelled as an error. -/
def clean_raw_data (df0 : Frame) : Except String Frame :=
  let df := standardize_columns df0
  if ¬ df.hasCol "pollutant" then .error "pollutant"
  else if ¬ df.hasCol "unit" then .error "unit"
  else if ¬ df.hasCol "value" then .error "value"
  else if ¬ df.hasCol "last_updated" then .error "last_updated"
  else if ¬ df.hasCol "coordinates" then .error "coordinates"
  else
    let mid := cleanMid df
    match dedupSubset.find? (fun c => ¬ mid.hasCol c) with
    | some c => .error c
    | none =>
      let ded : Frame := ⟨mid.cols, dedupAux (fun r => dedupSubset.map (getCell r)) mid.rows []⟩
      let fin := ded.selectCols (keepList.filter ded.hasCol)
      if rawHasPm25 df && ¬ fin.rows.any (fun r => getCell r "pollutant" == .str "pm25")
      then .error "pm25 present in raw data but missing after cleaning"
      else .ok fin

/-- Preferred grouping key of `aggregate_and_pivot`. -/
def preferredKeys : List String :=
  ["source_name", "location", "latitude", "longitude", "timestamp"]

/-- Fallback grouping key of `aggregate_and_pivot`. -/
def fallbackKeys : List String := ["location", "latitude", "longitude", "timestamp"]

/-- The stable-key selection of `aggregate_and_pivot`: the preferred key
when every column of it is present, otherwise the available subset of the
fallback key. -/
def stableKeysOf (cols : List String) : List String :=
  if preferredKeys.all (cols.contains ·) then preferredKeys
  else fallbackKeys.filter (cols.contains ·)

/-- `df["timestamp"].dt.floor(freq)` on a cell, for a bucket of `freq`
ticks. -/
def floorTime (freq : ℤ) (v : Cell) : Cell :=
  match v with
  | .time t => .time (freq * (Int.fdiv t freq))
  | _ => .nan

/-- skipna arithmetic mean of the cells of one group (`.mean()`): NaN when
no non-NaN value exists. -/
def meanCell (l : List Cell) : Cell :=
  let vals := l.filterMap fun c => match c with | .num q => some q | _ => none
  if vals = [] then .nan else .num (vals.sum / (vals.length : ℚ))

/-- Distinct values, first occurrence first. -/
def distinctAux {α : Type} [DecidableEq α] : List α → List α → List α
  | [], _ => []
  | a :: rest, seen =>
    if a ∈ seen then distinctAux rest seen else a :: distinctAux rest (a :: seen)

def distinct {α : Type} [DecidableEq α] (l : List α) : List α := distinctAux l []

/-- `aggregate_and_pivot` of `src/preprocessing.py` for a bucket of `freq`
ticks (the source's `freq="D"` string).  Group-key enumeration keeps first
appearance order; pandas sorts the grouped index, a reordering the claims do
not touch.  Per (key, pollutant) the `value_std` cells are mean-aggregated;
the pivot has one column per pollutant value and NaN where a combination is
absent; `country`/`city` attach as the first non-null value per group. -/
def aggregate_and_pivot (df_long : Frame) (freq : ℤ) : Except String Frame :=
  if ¬ df_long.hasCol "timestamp" then .error "timestamp"
  else
    let df := df_long.mapCol "timestamp" (fun c => floorTime freq (parseTimestampCell c))
    let stable_keys := stableKeysOf df.cols
    if stable_keys = [] then .error "No stable keys found for aggregation."
    else if ¬ df.hasCol "pollutant" then .error "pollutant"
    else if ¬ df.hasCol "value_std" then .error "value_std"
    else
      let keyOf : Row → List Cell := fun r => stable_keys.map (getCell r)
      let keys := distinct (df.rows.map keyOf)
      let polls := distinct (df.rows.filterMap fun r =>
        match getCell r "pollutant" with
        | .str s => some s
        | _ => none)
      let extra := ["country", "city"].filter df.hasCol
      let wide : Frame :=
        ⟨stable_keys ++ polls ++ extra,
         keys.map fun k =>
           (stable_keys.zip k) ++
           (polls.map fun p =>
             (p, meanCell ((df.rows.filter fun r =>
               keyOf r == k && getCell r "pollutant" == .str p).map
                 (fun r => getCell r "value_std")))) ++
           (extra.map fun c =>
             (c, (((df.rows.filter fun r => keyOf r == k).map
                 (fun r => getCell r c)).filter (· ≠ Cell.nan)).headD Cell.nan))⟩
      .ok wide

/-- Is an `Except` result a success? -/
def exceptIsOk {ε α : Type} : Except ε α → Bool
  | .ok _ => true
  | .error _ => false

/-- Decidable equality for `Except` results. -/
def exceptDecEq {ε α : Type} [DecidableEq ε] [DecidableEq α] :
    (a b : Except ε α) → Decidable (a = b)
  | .ok a, .ok b =>
    if h : a = b then isTrue (by rw [h])
    else isFalse (by intro he; cases he; exact h rfl)
  | .ok _, .error _ => isFalse (by intro h; cases h)
  | .error _, .ok _ => isFalse (by intro h; cases h)
  | .error e, .error f =>
    if h : e = f then isTrue (by rw [h])
    else isFalse (by intro he; cases he; exact h rfl)

instance {ε α : Type} [DecidableEq ε] [DecidableEq α] :
    DecidableEq (Except ε α) := exceptDecEq

/-- A one-record raw export: location A, a pm25 reading of 10 µg/m³ with an
already-parsed timestamp and unparsable coordinates. -/
def sampleRaw : Frame :=
  ⟨["location", "coordinates", "pollutant", "value", "unit", "last_updated"],
   [[("location", .str "A"), ("coordinates", .nan), ("pollutant", .str "pm25"),
     ("value", .num 10), ("unit", .str "ug/m3"), ("last_updated", .time 0)]]⟩

/-- The cleaned output of `sampleRaw`: only the `keep_cols` columns survive;
the raw `unit`, `value`, `last_updated` and `coordinates` columns are gone. -/
def sampleCleaned : Frame :=
  ⟨["location", "latitude", "longitude", "timestamp", "pollutant", "value_std",
    "unit_std"],
   [[("location", .str "A"), ("latitude", .nan), ("longitude", .nan),
     ("timestamp", .time 0), ("pollutant", .str "pm25"), ("value_std", .num 10),
     ("unit_std", .str "ug/m3")]]⟩

/-- A cleaned long-format frame with no `location` and no `source_name`
column: neither the preferred nor the fallback grouping key is fully
available. -/
def sampleNoLocation : Frame :=
  ⟨["timestamp", "latitude", "longitude", "pollutant", "value_std"],
   [[("timestamp", .time 0), ("latitude", .num 1), ("longitude", .num 2),
     ("pollutant", .str "pm25"), ("value_std", .num 10)]]⟩

/-- A cleaned long-format frame carrying every preferred grouping column. -/
def sampleFullKeys : Frame :=
  ⟨["source_name", "location", "latitude", "longitude", "timestamp",
    "pollutant", "value_std"],
   [[("source_name", .str "s"), ("location", .str "A"), ("latitude", .num 1),
     ("longitude", .num 2), ("timestamp", .time 0), ("pollutant", .str "pm25"),
     ("value_std", .num 10)]]⟩

end Prep

/-! ### Theorems -/

open Aqi Prep

theorem breakpoints_lookup_cases (p : String) (spec : PollutantSpec)
    (h : dictLookup BREAKPOINTS p = some spec) :
    (p = "pm25" ∧ spec = ⟨"ug/m3", pm25_table⟩) ∨
    (p = "pm10" ∧ spec = ⟨"ug/m3", pm10_table⟩) ∨
    (p = "o3" ∧ spec = ⟨"ppm", o3_table⟩) ∨
    (p = "co" ∧ spec = ⟨"ppm", co_table⟩) ∨
    (p = "so2" ∧ spec = ⟨"ppb", so2_table⟩) ∨
    (p = "no2" ∧ spec = ⟨"ppb", no2_table⟩) := by
  unfold dictLookup at h
  rcases Option.map_eq_some'.mp h with ⟨e, hfind, hsnd⟩
  have hfst : e.1 = p := by
    have := List.find?_some hfind
    simpa [beq_iff_eq] using this
  have hmem := List.mem_of_find?_eq_some hfind
  simp only [BREAKPOINTS, List.mem_cons, List.not_mem_nil, or_false] at hmem
  rcases hmem with h1 | h1 | h1 | h1 | h1 | h1 <;>
    (subst h1; simp only [] at hfst hsnd) <;>
    simp [← hfst, ← hsnd]

theorem mw_lookup_cases (p : String) (mw : ℚ)
    (h : dictLookup MOLECULAR_WEIGHTS p = some mw) :
    (p = "o3" ∧ mw = 48) ∨ (p = "no2" ∧ mw = 46.01) ∨
    (p = "so2" ∧ mw = 64.07) ∨ (p = "co" ∧ mw = 28.01) := by
  unfold dictLookup at h
  rcases Option.map_eq_some'.mp h with ⟨e, hfind, hsnd⟩
  have hfst : e.1 = p := by
    have := List.find?_some hfind
    simpa [beq_iff_eq] using this
  have hmem := List.mem_of_find?_eq_some hfind
  simp only [MOLECULAR_WEIGHTS, List.mem_cons, List.not_mem_nil, or_false] at hmem
  rcases hmem with h1 | h1 | h1 | h1 <;>
    (subst h1; simp only [] at hfst hsnd) <;>
    rw [← hsnd, ← hfst] <;> norm_num

theorem table_facts (tbl : List Breakpoint)
    (h : tbl = pm25_table ∨ tbl = pm10_table ∨ tbl = o3_table ∨
      tbl = co_table ∨ tbl = so2_table ∨ tbl = no2_table) :
    (∀ bp ∈ tbl, bp.bp_low < bp.bp_high ∧ bp.i_low ≤ bp.i_high) ∧
      List.Pairwise (fun a b => a.bp_high < b.bp_low) tbl := by
  rcases h with rfl | rfl | rfl | rfl | rfl | rfl <;> decide

theorem compute_iaqi_canonical (p : String) (spec : PollutantSpec)
    (h : dictLookup BREAKPOINTS p = some spec) (v : ℚ) :
    compute_iaqi p (some (.num v)) none = scanTable v spec.table := by
  rcases breakpoints_lookup_cases p spec h with
    ⟨rfl, rfl⟩ | ⟨rfl, rfl⟩ | ⟨rfl, rfl⟩ | ⟨rfl, rfl⟩ | ⟨rfl, rfl⟩ | ⟨rfl, rfl⟩ <;> rfl

theorem scanTable_eq_firstMatch (v : ℚ) (tbl : List Breakpoint) :
    scanTable v tbl = firstMatchSubIndex tbl v := by
  induction tbl with
  | nil => rfl
  | cons bp rest ih =>
    by_cases h : bp.bp_low ≤ v ∧ v ≤ bp.bp_high
    · simp [scanTable, firstMatchSubIndex, List.find?_cons_of_pos, h, interpolate]
    · simp only [scanTable, if_neg h, ih, firstMatchSubIndex]
      rw [List.find?_cons_of_neg]
      simpa using h

theorem scanTable_mem_tier (v : ℚ) (tbl : List Breakpoint)
    (hsep : List.Pairwise (fun a b => a.bp_high < b.bp_low) tbl)
    (bp : Breakpoint) (hmem : bp ∈ tbl) (h1 : bp.bp_low ≤ v) (h2 : v ≤ bp.bp_high) :
    scanTable v tbl = some (interpolate bp v) := by
  induction tbl with
  | nil => cases hmem
  | cons hd rest ih =>
    rcases List.mem_cons.mp hmem with rfl | hmem'
    · simp [scanTable, h1, h2]
    · have hd_lt : hd.bp_high < bp.bp_low := (List.pairwise_cons.mp hsep).1 bp hmem'
      have hno : ¬ (hd.bp_low ≤ v ∧ v ≤ hd.bp_high) := by
        rintro ⟨-, hv⟩; linarith
      simp only [scanTable, if_neg hno]
      exact ih (List.pairwise_cons.mp hsep).2 hmem'

theorem interpolate_mono (bp : Breakpoint) (hlh : bp.bp_low < bp.bp_high)
    (hil : bp.i_low ≤ bp.i_high) (v w : ℚ) (hvw : v ≤ w) :
    interpolate bp v ≤ interpolate bp w := by
  unfold interpolate
  have hs : (0 : ℚ) ≤ ((bp.i_high : ℚ) - (bp.i_low : ℚ)) / (bp.bp_high - bp.bp_low) := by
    apply div_nonneg
    · exact_mod_cast sub_nonneg.mpr hil
    · exact le_of_lt (sub_pos.mpr hlh)
  have := mul_le_mul_of_nonneg_left (sub_le_sub_right hvw bp.bp_low) hs
  linarith

theorem interpolate_at_high (bp : Breakpoint) (h : bp.bp_low < bp.bp_high) :
    interpolate bp bp.bp_high = (bp.i_high : ℚ) := by
  unfold interpolate
  rw [div_mul_eq_mul_div, mul_div_assoc, div_self (sub_ne_zero.mpr (ne_of_gt h)),
    mul_one]
  ring

theorem interpolate_at_low (bp : Breakpoint) :
    interpolate bp bp.bp_low = (bp.i_low : ℚ) := by
  unfold interpolate; simp

/-- C3: every per-pollutant breakpoint table satisfies
`concentration_low ≤ concentration_high` and `index_low ≤ index_high` on
each entry, is ordered ascending by concentration, and each entry's
`concentration_high` is immediately followed by the next entry's
`concentration_low` — adjacent at the table's reporting resolution
(0.1 µg/m³ for pm25, 1 µg/m³ for pm10, 0.001 ppm for o3, 0.1 ppm for co,
1 ppb for so2 and no2) — so consecutive closed intervals neither gap nor
overlap at that resolution. -/
theorem breakpoint_tables_invariant :
    tableWellFormed (1/10) pm25_table ∧ tableWellFormed 1 pm10_table ∧
    tableWellFormed (1/1000) o3_table ∧ tableWellFormed (1/10) co_table ∧
    tableWellFormed 1 so2_table ∧ tableWellFormed 1 no2_table := by
  decide

/-- C1: for every pollutant of the enumerated set and every standardized
concentration, `compute_iaqi` equals the first-match linear interpolation
over the pollutant's breakpoint table: the first tier whose closed interval
contains the value yields
`(index_high − index_low) / (concentration_high − concentration_low) ×
(value − concentration_low) + index_low`, and no containing tier yields
`none` (no extrapolation, no clamping). -/
theorem compute_iaqi_first_match (p : String) (hp : p ∈ pollutantKeys) (v : ℚ) :
    ∃ spec, dictLookup BREAKPOINTS p = some spec ∧
      compute_iaqi p (some (.num v)) none = firstMatchSubIndex spec.table v := by
  have go : ∀ spec, dictLookup BREAKPOINTS p = some spec →
      compute_iaqi p (some (.num v)) none = firstMatchSubIndex spec.table v := by
    intro spec h
    rw [compute_iaqi_canonical p spec h v]
    exact scanTable_eq_firstMatch v spec.table
  fin_cases hp <;> exact ⟨_, rfl, go _ rfl⟩

/-- C1 witness: the theorem applied at pm25 and value 10. -/
theorem compute_iaqi_first_match_witness :
    ∃ spec, dictLookup BREAKPOINTS "pm25" = some spec ∧
      compute_iaqi "pm25" (some (.num 10)) none = firstMatchSubIndex spec.table 10 :=
  compute_iaqi_first_match "pm25" (by decide) 10

/-- C4: `aqi_category` is the claimed pure step function of the numeric AQI
(≤50 Good, ≤100 Moderate, ≤150 Unhealthy for Sensitive Groups, ≤200
Unhealthy, ≤300 Very Unhealthy, otherwise Hazardous, so values above 500
are still Hazardous), and `compute_aqi_row` does not clamp its numeric
result: it is exactly the maximum of the collected sub-indices. -/
theorem aqi_category_step :
    (∀ q : ℚ, aqi_category (some (.num q)) = some (categorySpec q) ∧
      (500 < q → aqi_category (some (.num q)) = some "Hazardous")) ∧
    ∀ row units, compute_aqi_row row units = (rowSubIndices row units).max? := by
  constructor
  · intro q
    constructor
    · simp only [aqi_category, categorySpec]
      split_ifs <;> rfl
    · intro h
      simp only [aqi_category]
      split_ifs <;> first | rfl | linarith
  · intro row units
    simp only [compute_aqi_row]
    split_ifs with h
    · rw [h]; rfl
    · rfl

/-- C4 witness: the step function evaluated at an above-500 AQI. -/
theorem aqi_category_step_witness :
    aqi_category (some (.num 612)) = some "Hazardous" :=
  (aqi_category_step.1 612).2 (by norm_num)

/-- C7: for each gaseous pollutant's molecular weight, the ideal-gas
conversions round-trip exactly (hence within any relative tolerance,
in particular 1e-6): ppm→µg/m³→ppm, µg/m³→ppm→µg/m³, and the ppb variants
(the ×1000/÷1000 compositions used by `convert_to_standard`). -/
theorem gas_conversion_roundtrip (p : String) (_hp : p ∈ ["o3", "co", "so2", "no2"])
    (mw : ℚ) (hmw : dictLookup MOLECULAR_WEIGHTS p = some mw) (v : ℚ) :
    ugm3_to_ppm (ppm_to_ugm3 v mw) mw = v ∧
    ppm_to_ugm3 (ugm3_to_ppm v mw) mw = v ∧
    ugm3_to_ppm (ppm_to_ugm3 (v / 1000) mw) mw * 1000 = v ∧
    ppm_to_ugm3 (ugm3_to_ppm v mw * 1000 / 1000) mw = v ∧
    |ugm3_to_ppm (ppm_to_ugm3 v mw) mw - v| ≤ 1 / 1000000 * |v| := by
  have hmw0 : mw ≠ 0 := by
    rcases mw_lookup_cases p mw hmw with ⟨-, rfl⟩ | ⟨-, rfl⟩ | ⟨-, rfl⟩ | ⟨-, rfl⟩ <;>
      norm_num
  have h1 : ugm3_to_ppm (ppm_to_ugm3 v mw) mw = v := by
    unfold ugm3_to_ppm ppm_to_ugm3
    field_simp
    ring
  have h2 : ppm_to_ugm3 (ugm3_to_ppm v mw) mw = v := by
    unfold ugm3_to_ppm ppm_to_ugm3
    field_simp
    ring
  have h3 : ugm3_to_ppm (ppm_to_ugm3 (v / 1000) mw) mw * 1000 = v := by
    unfold ugm3_to_ppm ppm_to_ugm3
    field_simp
    ring
  have h4 : ppm_to_ugm3 (ugm3_to_ppm v mw * 1000 / 1000) mw = v := by
    unfold ugm3_to_ppm ppm_to_ugm3
    field_simp
    ring
  refine ⟨h1, h2, h3, h4, ?_⟩
  rw [h1]
  simp only [sub_self, abs_zero]
  positivity

/-- C7 witness: the round-trip identities at ozone (MW 48) and value 3. -/
theorem gas_conversion_roundtrip_witness :
    ugm3_to_ppm (ppm_to_ugm3 3 48) 48 = 3 ∧
    ppm_to_ugm3 (ugm3_to_ppm 3 48) 48 = 3 ∧
    ugm3_to_ppm (ppm_to_ugm3 (3 / 1000) 48) 48 * 1000 = 3 ∧
    ppm_to_ugm3 (ugm3_to_ppm 3 48 * 1000 / 1000) 48 = 3 ∧
    |ugm3_to_ppm (ppm_to_ugm3 3 48) 48 - 3| ≤ 1 / 1000000 * |(3 : ℚ)| :=
  gas_conversion_roundtrip "o3" (by decide) 48 (by decide) 3

/-- C2: `compute_aqi_row` is `none` exactly when no pollutant yields a
defined sub-index; otherwise it returns the maximum of the defined
sub-indices; and a key outside the enumerated pollutant set is skipped
without effect (and without error, the model being total). -/
theorem compute_aqi_row_max (row : List (String × Option PyFloat))
    (units : Option (List (String × Option String))) :
    (compute_aqi_row row units = none ↔ rowSubIndices row units = []) ∧
    (∀ m, compute_aqi_row row units = some m →
      m ∈ rowSubIndices row units ∧ ∀ x ∈ rowSubIndices row units, x ≤ m) ∧
    (∀ k val, k ∉ pollutantKeys →
      compute_aqi_row ((k, val) :: row) units = compute_aqi_row row units) := by
  have hrow : ∀ r, compute_aqi_row r units = (rowSubIndices r units).max? := by
    intro r
    simp only [compute_aqi_row]
    split_ifs with h
    · rw [h]; rfl
    · rfl
  refine ⟨?_, ?_, ?_⟩
  · rw [hrow, List.max?_eq_none_iff]
  · intro m hm
    rw [hrow] at hm
    exact ⟨List.max?_mem max_choice hm,
      fun x hx => (List.max?_le_iff (fun _ _ _ => max_le_iff) hm).1 le_rfl x hx⟩
  · intro k val hk
    have hsub : rowSubIndices ((k, val) :: row) units = rowSubIndices row units := by
      unfold rowSubIndices
      apply List.filterMap_congr
      intro p hp
      have hkp : ¬ (((k, val).1 == p) = true) := by
        simp only [beq_iff_eq]
        exact fun e => hk (e ▸ hp)
      have hfind : List.find? (fun e => e.1 == p) ((k, val) :: row) =
          List.find? (fun e => e.1 == p) row :=
        List.find?_cons_of_neg _ hkp
      simp only [dictLookup, dictContains]
      rw [hfind]
    rw [hrow, hrow, hsub]

/-- C2 witness: an unrecognized key is skipped. -/
theorem compute_aqi_row_max_witness :
    compute_aqi_row [("xyz", some (.num 7)), ("pm25", some (.num 10))] none =
      compute_aqi_row [("pm25", some (.num 10))] none :=
  (compute_aqi_row_max [("pm25", some (.num 10))] none).2.2 "xyz"
    (some (.num 7)) (by decide)

/-- C5: `convert_to_standard` is total (the model returns a value on every
input) and returns `(none, none)` whenever the value is absent or NaN, the
pollutant is not in `BREAKPOINTS`, or the normalized unit has no conversion
rule for the pollutant's class. -/
theorem convert_to_standard_fails_soft (p : String) (v : Option PyFloat)
    (u : Option String) :
    ((v = none ∨ v = some .nan) → convert_to_standard p v u = (none, none)) ∧
    (p ∉ pollutantKeys → convert_to_standard p v u = (none, none)) ∧
    ((∀ s, normalize_unit u = some s → s ∉ acceptedUnits p) →
      convert_to_standard p v u = (none, none)) := by
  refine ⟨?_, ?_, ?_⟩
  · rintro (rfl | rfl) <;> rfl
  · intro hnp
    match v with
    | none => rfl
    | some .nan => rfl
    | some (.num w) =>
      cases hbk : dictLookup BREAKPOINTS p with
      | none => simp [convert_to_standard, hbk]
      | some spec =>
        exfalso
        rcases breakpoints_lookup_cases p spec hbk with
          ⟨rfl, -⟩ | ⟨rfl, -⟩ | ⟨rfl, -⟩ | ⟨rfl, -⟩ | ⟨rfl, -⟩ | ⟨rfl, -⟩ <;>
          exact hnp (by decide)
  · intro h
    match v with
    | none => rfl
    | some .nan => rfl
    | some (.num w) =>
      cases hbk : dictLookup BREAKPOINTS p with
      | none => simp [convert_to_standard, hbk]
      | some spec =>
        rcases breakpoints_lookup_cases p spec hbk with
          ⟨rfl, rfl⟩ | ⟨rfl, rfl⟩ | ⟨rfl, rfl⟩ | ⟨rfl, rfl⟩ | ⟨rfl, rfl⟩ | ⟨rfl, rfl⟩ <;>
        · rcases hnu : normalize_unit u with - | s
          · simp [convert_to_standard, dictLookup, BREAKPOINTS, MOLECULAR_WEIGHTS,
              List.find?, hnu]
          · have hs := h s hnu
            simp [acceptedUnits, not_or] at hs
            simp [convert_to_standard, dictLookup, BREAKPOINTS, MOLECULAR_WEIGHTS,
              List.find?, hnu, hs]

/-- C5 witness: an unrecognized pollutant code converts to absent. -/
theorem convert_to_standard_fails_soft_witness :
    convert_to_standard "ozone" (some (.num 1)) (some "ppb") = (none, none) :=
  (convert_to_standard_fails_soft "ozone" (some (.num 1)) (some "ppb")).2.1 (by decide)

set_option maxHeartbeats 1000000 in
/-- C10: `convert_to_standard` returns either both components absent or both
present, and a present unit is exactly the pollutant's canonical unit
(ug/m3 for pm25 and pm10, ppm for o3 and co, ppb for so2 and no2). -/
theorem convert_to_standard_canonical :
    (∀ p v u, convert_to_standard p v u = (none, none) ∨
      ∃ q cu, convert_to_standard p v u = (some q, some cu) ∧
        canonicalUnit p = some cu) ∧
    canonicalUnit "pm25" = some "ug/m3" ∧ canonicalUnit "pm10" = some "ug/m3" ∧
    canonicalUnit "o3" = some "ppm" ∧ canonicalUnit "co" = some "ppm" ∧
    canonicalUnit "so2" = some "ppb" ∧ canonicalUnit "no2" = some "ppb" := by
  refine ⟨?_, by decide, by decide, by decide, by decide, by decide, by decide⟩
  intro p v u
  match v with
  | none => exact Or.inl rfl
  | some .nan => exact Or.inl rfl
  | some (.num w) =>
    cases hbk : dictLookup BREAKPOINTS p with
    | none =>
      left
      simp [convert_to_standard, hbk]
    | some spec =>
      have hcu : canonicalUnit p = some spec.unit := by
        simp [canonicalUnit, hbk]
      cases hmw : dictLookup MOLECULAR_WEIGHTS p with
      | none =>
        simp only [convert_to_standard, hbk, hmw]
        split_ifs <;> first
          | exact Or.inl rfl
          | exact Or.inr ⟨_, spec.unit, rfl, hcu⟩
      | some mw =>
        simp only [convert_to_standard, hbk, hmw]
        split_ifs <;> first
          | exact Or.inl rfl
          | exact Or.inr ⟨_, spec.unit, rfl, hcu⟩

/-- C6: within any single breakpoint tier, `compute_iaqi` with
canonical-unit input is monotonically non-decreasing, and at the tier's
bounds it returns exactly the tier's `index_high` and `index_low` (so the
piecewise map is continuous across adjacent tier boundaries). -/
theorem compute_iaqi_tier_mono_boundary (p : String) (spec : PollutantSpec)
    (hspec : dictLookup BREAKPOINTS p = some spec)
    (bp : Breakpoint) (hbp : bp ∈ spec.table) :
    (∀ v w : ℚ, bp.bp_low ≤ v → v ≤ w → w ≤ bp.bp_high →
      ∃ a b, compute_iaqi p (some (.num v)) none = some a ∧
        compute_iaqi p (some (.num w)) none = some b ∧ a ≤ b) ∧
    compute_iaqi p (some (.num bp.bp_high)) none = some (bp.i_high : ℚ) ∧
    compute_iaqi p (some (.num bp.bp_low)) none = some (bp.i_low : ℚ) := by
  have htbl : spec.table = pm25_table ∨ spec.table = pm10_table ∨
      spec.table = o3_table ∨ spec.table = co_table ∨
      spec.table = so2_table ∨ spec.table = no2_table := by
    rcases breakpoints_lookup_cases p spec hspec with
      ⟨-, rfl⟩ | ⟨-, rfl⟩ | ⟨-, rfl⟩ | ⟨-, rfl⟩ | ⟨-, rfl⟩ | ⟨-, rfl⟩ <;> simp
  obtain ⟨hfacts, hsep⟩ := table_facts spec.table htbl
  obtain ⟨hlh, hil⟩ := hfacts bp hbp
  have hred := compute_iaqi_canonical p spec hspec
  refine ⟨?_, ?_, ?_⟩
  · intro v w hv hvw hw
    refine ⟨interpolate bp v, interpolate bp w, ?_, ?_, ?_⟩
    · rw [hred]
      exact scanTable_mem_tier v _ hsep bp hbp hv (le_trans hvw hw)
    · rw [hred]
      exact scanTable_mem_tier w _ hsep bp hbp (le_trans hv hvw) hw
    · exact interpolate_mono bp hlh hil v w hvw
  · rw [hred, scanTable_mem_tier _ _ hsep bp hbp (le_of_lt hlh) le_rfl,
      interpolate_at_high bp hlh]
  · rw [hred, scanTable_mem_tier _ _ hsep bp hbp le_rfl (le_of_lt hlh),
      interpolate_at_low bp]

/-- C6 witness: the ozone tier 0.055–0.070 → 51–100 evaluated at both of
its bounds. -/
theorem compute_iaqi_tier_mono_boundary_witness :
    compute_iaqi "o3" (some (.num 0.070)) none = some 100 ∧
    compute_iaqi "o3" (some (.num 0.055)) none = some 51 := by
  have h := compute_iaqi_tier_mono_boundary "o3" ⟨"ppm", o3_table⟩ (by decide)
    ⟨0.055, 0.070, 51, 100⟩ (by decide)
  exact ⟨h.2.1, h.2.2⟩

theorem hasCol_iff (f : Frame) (c : String) : f.hasCol c = true ↔ c ∈ f.cols := by
  simp [Frame.hasCol, List.contains, List.elem_iff]

theorem hasCol_false_iff (f : Frame) (c : String) :
    f.hasCol c = false ↔ c ∉ f.cols := by
  rw [← hasCol_iff]
  cases f.hasCol c <;> simp

theorem normalizedDict_aux (cols : List String) :
    ∀ (acc : List (String × String)),
      (∀ e ∈ acc, e.1 = normalizeColName e.2) →
      ∀ e ∈ cols.foldl (fun m c => insertOverwrite m (normalizeColName c) c) acc,
        e.1 = normalizeColName e.2 ∧ (e.2 ∈ cols ∨ e ∈ acc) := by
  induction cols with
  | nil =>
    intro acc hacc e he
    exact ⟨hacc e he, Or.inr he⟩
  | cons c rest ih =>
    intro acc hacc e he
    simp only [List.foldl_cons] at he
    have hacc' : ∀ e ∈ insertOverwrite acc (normalizeColName c) c,
        e.1 = normalizeColName e.2 := by
      intro e' he'
      simp only [insertOverwrite, List.mem_append, List.mem_filter,
        List.mem_singleton] at he'
      rcases he' with ⟨h1, -⟩ | rfl
      · exact hacc e' h1
      · rfl
    obtain ⟨h1, h2⟩ := ih (insertOverwrite acc (normalizeColName c) c) hacc' e he
    refine ⟨h1, ?_⟩
    rcases h2 with h2 | h2
    · exact Or.inl (List.mem_cons_of_mem _ h2)
    · simp only [insertOverwrite, List.mem_append, List.mem_filter,
        List.mem_singleton] at h2
      rcases h2 with ⟨h2, -⟩ | rfl
      · exact Or.inr h2
      · exact Or.inl (List.mem_cons_self _ _)

theorem normalizedDict_mem (cols : List String) (e : String × String)
    (h : e ∈ normalizedDict cols) :
    e.1 = normalizeColName e.2 ∧ e.2 ∈ cols := by
  have := normalizedDict_aux cols [] (by simp) e h
  rcases this with ⟨h1, h2 | h2⟩
  · exact ⟨h1, h2⟩
  · cases h2

theorem renameMap_mem (cols : List String) (c t : String)
    (h : (c, t) ∈ renameMap cols) :
    c ∈ cols ∧ recognizedTarget (normalizeColName c) = some t := by
  unfold renameMap at h
  rcases List.mem_filterMap.mp h with ⟨e, he, hmap⟩
  rcases Option.map_eq_some'.mp hmap with ⟨t', ht', heq⟩
  injection heq with h1 h2
  obtain ⟨hn, hm⟩ := normalizedDict_mem cols e he
  subst h1; subst h2
  exact ⟨hm, by rw [← hn]; exact ht'⟩

theorem applyRename_cases (rm : List (String × String)) (c : String) :
    applyRename rm c = c ∨ (c, applyRename rm c) ∈ rm := by
  unfold applyRename
  cases hf : rm.find? (fun e => e.1 == c) with
  | none => exact Or.inl rfl
  | some e =>
    right
    have hm := List.mem_of_find?_eq_some hf
    have h1 : e.1 = c := by simpa [beq_iff_eq] using List.find?_some hf
    rw [← h1]
    simpa using hm

theorem std_cols_eq (f : Frame) :
    (standardize_columns f).cols = f.cols.map (applyRename (renameMap f.cols)) := rfl

theorem unit_not_in_std (f : Frame) (hsub : ∀ c ∈ f.cols, c ∈ keepList) :
    "unit" ∉ (standardize_columns f).cols := by
  rw [std_cols_eq]
  intro hmem
  rcases List.mem_map.mp hmem with ⟨c, hc, hac⟩
  have hck := hsub c hc
  rcases applyRename_cases (renameMap f.cols) c with h | h
  · have : c = "unit" := h.symm.trans hac
    subst this
    exact absurd hck (by decide)
  · rw [hac] at h
    obtain ⟨-, htgt⟩ := renameMap_mem f.cols c "unit" h
    have hall : ∀ c ∈ keepList, ¬ recognizedTarget (normalizeColName c) = some "unit" := by
      decide
    exact hall c hck htgt

theorem pollutant_in_std (f : Frame) (hp : "pollutant" ∈ f.cols) :
    "pollutant" ∈ (standardize_columns f).cols := by
  rw [std_cols_eq]
  apply List.mem_map.mpr
  refine ⟨"pollutant", hp, ?_⟩
  rcases applyRename_cases (renameMap f.cols) "pollutant" with h | h
  · exact h
  · obtain ⟨-, htgt⟩ := renameMap_mem _ _ _ h
    have hpt : recognizedTarget (normalizeColName "pollutant") = some "pollutant" := by
      decide
    have := hpt.symm.trans htgt
    exact (Option.some.inj this).symm

theorem mapCol_cols (f : Frame) (c : String) (g : Cell → Cell) :
    (f.mapCol c g).cols = f.cols := rfl

theorem filterRows_cols (f : Frame) (p : Row → Bool) :
    (f.filterRows p).cols = f.cols := rfl

theorem addCol_cols_mem (f : Frame) (c c' : String) (g : Row → Cell)
    (h : c' ∈ f.cols) : c' ∈ (f.addCol c g).cols := by
  simp only [Frame.addCol]
  split
  · exact h
  · exact List.mem_append.mpr (Or.inl h)

theorem cleanMid_cols_mem (g : Frame) (c' : String) (h : c' ∈ g.cols) :
    c' ∈ (cleanMid g).cols := by
  unfold cleanMid
  rw [filterRows_cols]
  apply addCol_cols_mem
  apply addCol_cols_mem
  apply addCol_cols_mem
  apply addCol_cols_mem
  apply addCol_cols_mem
  rw [mapCol_cols, mapCol_cols, filterRows_cols, mapCol_cols]
  exact h

theorem clean_ok_shape (df out : Frame) (h : clean_raw_data df = .ok out) :
    ∃ d : Frame, out = d.selectCols (keepList.filter d.hasCol) ∧
      d.hasCol "pollutant" = true := by
  simp only [clean_raw_data] at h
  split at h
  · exact Except.noConfusion h
  next hp1 =>
  split at h
  · exact Except.noConfusion h
  split at h
  · exact Except.noConfusion h
  split at h
  · exact Except.noConfusion h
  split at h
  · exact Except.noConfusion h
  split at h
  · exact Except.noConfusion h
  split at h
  · exact Except.noConfusion h
  refine ⟨_, (Except.ok.inj h).symm, ?_⟩
  rw [hasCol_iff]
  show "pollutant" ∈ (cleanMid (standardize_columns df)).cols
  apply cleanMid_cols_mem
  rw [← hasCol_iff]
  exact Bool.of_not_eq_false (fun hfalse => hp1 (by rw [hfalse]; simp))

theorem clean_missing_unit (f : Frame) (hsub : ∀ c ∈ f.cols, c ∈ keepList)
    (hp : "pollutant" ∈ f.cols) : clean_raw_data f = .error "unit" := by
  have h1 : (standardize_columns f).hasCol "pollutant" = true :=
    (hasCol_iff _ _).mpr (pollutant_in_std f hp)
  have h2 : (standardize_columns f).hasCol "unit" = false :=
    (hasCol_false_iff _ _).mpr (unit_not_in_std f hsub)
  simp [clean_raw_data, h1, h2]

/-- C8 counterexample: cleaning the one-record raw export succeeds, but
running `clean_raw_data` again on its own output does not succeed — it
fails with a missing-column error on `unit`. -/
theorem clean_raw_data_not_idempotent :
    clean_raw_data sampleRaw = .ok sampleCleaned ∧
    clean_raw_data sampleCleaned = .error "unit" := by
  constructor <;> decide

/-- C8 amended: a second run of `clean_raw_data` on any successful output
always fails with the missing-column error on `unit`, because the cleaned
schema keeps only `keep_cols` columns and drops the raw `unit` column the
cleaner requires. -/
theorem clean_raw_data_second_run_fails (df out : Frame)
    (h : clean_raw_data df = .ok out) : clean_raw_data out = .error "unit" := by
  obtain ⟨d, rfl, hd⟩ := clean_ok_shape df out h
  apply clean_missing_unit
  · intro c hc
    simp only [Frame.selectCols] at hc
    exact List.mem_of_mem_filter hc
  · simp only [Frame.selectCols]
    exact List.mem_filter.mpr ⟨by decide, hd⟩

/-- C8 amended witness: the second run on the concrete cleaned sample. -/
theorem clean_raw_data_second_run_fails_witness :
    clean_raw_data sampleCleaned = .error "unit" :=
  clean_raw_data_second_run_fails sampleRaw sampleCleaned (by decide)

/-- C9 counterexample: on a frame with neither grouping key fully available
(no `location`, no `source_name`), `aggregate_and_pivot` does not fail — it
aggregates under the weaker key (latitude, longitude, time-bucket). -/
theorem aggregate_weak_key_counterexample :
    preferredKeys.all (sampleNoLocation.cols.contains ·) = false ∧
    fallbackKeys.all (sampleNoLocation.cols.contains ·) = false ∧
    stableKeysOf sampleNoLocation.cols = ["latitude", "longitude", "timestamp"] ∧
    exceptIsOk (aggregate_and_pivot sampleNoLocation 1) = true := by
  refine ⟨by decide, by decide, by decide, by decide⟩

/-- C9 amended: the grouping key is the preferred
(source_name, location, latitude, longitude, time-bucket) when all of its
columns are present; otherwise it is the available subset of
(location, latitude, longitude, time-bucket); and the operation reports an
error when none of the fallback columns is present (`timestamp` itself
being missing already fails the timestamp access). -/
theorem aggregate_key_selection (df : Frame) (freq : ℤ) :
    (preferredKeys.all (df.cols.contains ·) = true →
      stableKeysOf df.cols = preferredKeys) ∧
    (preferredKeys.all (df.cols.contains ·) = false →
      stableKeysOf df.cols = fallbackKeys.filter (df.cols.contains ·)) ∧
    ((∀ k ∈ fallbackKeys, df.cols.contains k = false) →
      aggregate_and_pivot df freq = .error "timestamp") := by
  refine ⟨?_, ?_, ?_⟩
  · intro h
    unfold stableKeysOf
    rw [if_pos h]
  · intro h
    unfold stableKeysOf
    rw [if_neg]
    rw [h]
    simp
  · intro h
    have ht : df.hasCol "timestamp" = false := h "timestamp" (by decide)
    simp [aggregate_and_pivot, ht]

/-- C9 amended witness: on the full-key sample the preferred key is
selected. -/
theorem aggregate_key_selection_witness :
    stableKeysOf sampleFullKeys.cols = preferredKeys :=
  (aggregate_key_selection sampleFullKeys 1).1 (by decide)
